import Mathlib

/-!
Verification of the call-state / session-reconciliation logic of the
`plugin-phone` `Call` model (`src/packages/plugin-phone/src/call.js`).

The data model is a shallow embedding of the session ("locus") documents the
Call consumes, the Call's own state, and an environment supplying the results
of the external collaborators (session comparator, session CRUD API, media
adapter).  Pieces of the repository that are referenced by `call.js` but whose
source is not present under `src/` (the `state-parsers` helpers, the `@retry`
and `@oneFlight` decorators, the locus comparator) are modelled from the
specification; each such definition carries a doc comment saying so.
-/

namespace SparkCall

/-- A device record inside a locus `self` participant (`locus.self.devices`
entries in the source).  `correlationId` may be absent, matching an
undefined JS field. -/
structure Device where
  url : String
  correlationId : Option String
  deriving DecidableEq, Repr

/-- The per-participant media status object (`participant.status` in the
source), carrying the reported audio/video status strings such as
`"SENDRECV"`. -/
structure ParticipantStatus where
  audioStatus : String
  videoStatus : String
  deriving DecidableEq, Repr

/-- A participant record of a locus document: its join/leave `state` string
(`"JOINED"`, `"LEFT"`, `"DECLINED"`, `"NOTIFIED"`, ...), its identifying url,
its device bindings and its media status. -/
structure Participant where
  url : String
  state : String
  devices : List Device
  status : ParticipantStatus
  deriving DecidableEq, Repr

/-- A session ("locus") document snapshot: `url` identifies the session,
`self` is this user's participant record when present, `participants` the
full participant list. -/
structure Locus where
  url : String
  self : Option Participant
  participants : List Participant
  deriving DecidableEq, Repr

/-- Modelled from the spec: `participantIsJoined` lives in
`state-parsers.js`, which is not under `src/`; per the spec a participant's
"state indicates joined" when its state is `JOINED`. -/
def participantIsJoined (p : Participant) : Bool :=
  p.state = "JOINED"

/-- Modelled from the spec: `remoteParticipant` lives in `state-parsers.js`,
which is not under `src/`; per the spec the remote participant is the derived
view of "the other party", i.e. the first participant that is not `self`. -/
def remoteParticipant (l : Locus) : Option Participant :=
  l.participants.find? fun p =>
    match l.self with
    | some s => p.url ≠ s.url
    | none => true

/-- Modelled from the spec: `joinedOnThisDevice` lives in `state-parsers.js`,
which is not under `src/`; per the spec it holds when this device has joined
the session: the self participant is joined and carries a device record for
this device's url. -/
def joinedOnThisDevice (deviceUrl : String) (l : Locus) : Bool :=
  match l.self with
  | some s => participantIsJoined s && s.devices.any (fun d => d.url = deviceUrl)
  | none => false

/-- The derived `local` participant of the Call (`local` in the source's
`derived` block): `this.locus && this.locus.self`. -/
def localOf (l : Option Locus) : Option Participant :=
  l.bind fun loc => loc.self

/-- The derived `remote` participant of the Call (`remote` in the source's
`derived` block): `this.locus && remoteParticipant(this.locus)`. -/
def remoteOf (l : Option Locus) : Option Participant :=
  l.bind remoteParticipant

/-- The truthiness of `this.remote && participantIsJoined(this.remote)` in
the source's status fn: false when there is no remote participant. -/
def remoteIsJoined (rmt : Option Participant) : Bool :=
  match rmt with
  | some r => participantIsJoined r
  | none => false

/-- The body of the `if (this.remote && this.local)` block of the source's
status fn, taken when both participant records exist. -/
def statusBothPresent (l r : Participant) : String :=
  if r.state = "LEFT" || l.state = "LEFT" then
    "disconnected"
  else if r.state = "DECLINED" then
    "disconnected"
  else if r.state = "NOTIFIED" then
    "ringing"
  else
    "initiated"

/-- The status deriver, translated from the `status` derived property of
`call.js` (lines 275-302): the fn body over the derived inputs
`joinedOnThisDevice`, `local` and `remote`. -/
def deriveStatus (joinedHere : Bool) (lcl rmt : Option Participant) : String :=
  if joinedHere && remoteIsJoined rmt then
    "connected"
  else
    match rmt, lcl with
    | some r, some l => statusBothPresent l r
    | _, _ => "initiated"

/-- The Call's derived `status` as a function of the session snapshot and the
device url, composing the derived property graph `locus → local/remote →
status` of the source. -/
def callStatus (deviceUrl : String) (l : Option Locus) : String :=
  deriveStatus (match l with
                | some loc => joinedOnThisDevice deviceUrl loc
                | none => false)
    (localOf l) (remoteOf l)

/-- The spec's ordered status rule (§4.1), written from the spec's words,
to be compared against `deriveStatus` which is translated from the source. -/
def specStatusRule (joinedHere : Bool) (lcl rmt : Option Participant) : String :=
  match rmt with
  | some r =>
    if joinedHere && participantIsJoined r then
      "connected"
    else
      match lcl with
      | some l =>
        if l.state = "LEFT" ∨ r.state = "LEFT" then "disconnected"
        else if r.state = "DECLINED" then "disconnected"
        else if r.state = "NOTIFIED" then "ringing"
        else "initiated"
      | none => "initiated"
  | none => "initiated"

/-- The verdicts of the session comparator consumed by `_setLocus`:
`USE_INCOMING` and `FETCH` are imported from `plugin-locus` in the source;
every other verdict falls into the switch's default (do nothing) case,
modelled as `ignore`. -/
inductive CompareAction
  | useIncoming
  | fetch
  | ignore
  deriving DecidableEq, Repr

/-- The Call's mutable state relevant to reconciliation and lifecycle:
the session snapshot (`locus`), the correlation identifier, and the
in-flight guards. -/
structure CallState where
  locus : Option Locus
  correlationId : Option String
  locusJoinInFlight : Bool
  locusLeaveInFlight : Bool
  deriving DecidableEq, Repr

/-- Observable events of a Call operation, in emission order: change
notifications for state fields, and the external requests / waits the
operation performs. -/
inductive Ev
  | changeLocus
  | changeCorrelationId
  | mediaEnd
  | leaveRequest
  | declineRequest
  | waitChangeLocus
  | teardown
  deriving DecidableEq, Repr

/-- The external locus service as consumed by `_setLocus`: the comparator
verdict for a (current, incoming) pair, and the stream of results returned
by successive `spark.locus.get` fetches. -/
structure LocusApi where
  compare : Locus → Locus → CompareAction
  fetched : Nat → Locus

/-- The Call's derived `device` property: the device record of `locus.self`
whose url is this device's url (`find(this.locus.self.devices, ...)`). -/
def deviceOf (deviceUrl : String) (l : Option Locus) : Option Device :=
  l.bind fun loc => loc.self.bind fun s => s.devices.find? fun d => d.url = deviceUrl

/-- The `USE_INCOMING` branch of `_setLocus`: adopt the incoming snapshot
wholesale and, when the adopted snapshot carries a matching device record,
resynchronize `correlationId` from it.  A change notification is emitted for
a field only when its value actually changes. -/
def adoptIncoming (deviceUrl : String) (st : CallState) (incoming : Locus) :
    CallState × List Ev :=
  let evLocus : List Ev := if st.locus = some incoming then [] else [Ev.changeLocus]
  match deviceOf deviceUrl (some incoming) with
  | some d =>
    ({ st with locus := some incoming, correlationId := d.correlationId },
     evLocus ++ if st.correlationId = d.correlationId then [] else [Ev.changeCorrelationId])
  | none => ({ st with locus := some incoming }, evLocus)

/-- `_setLocus`, translated from `call.js` lines 871-896, with explicit fuel
for the `FETCH` recursion (the source recursion is unbounded; `none` means
the fuel ran out before the comparator accepted a snapshot).  The second
argument indexes into the fetch stream.  With no current session the
incoming snapshot is adopted unconditionally before the comparator is ever
consulted; on `USE_INCOMING` the incoming snapshot is adopted and the
correlation id resynchronized; on `FETCH` a fresh copy is fetched and
recursively reconciled; otherwise nothing happens. -/
def setLocusFuel (deviceUrl : String) (api : LocusApi) :
    Nat → Nat → CallState → Locus → Option (CallState × List Ev)
  | 0, _, _, _ => none
  | fuel + 1, i, st, incoming =>
    match st.locus with
    | none => some ({ st with locus := some incoming }, [Ev.changeLocus])
    | some current =>
      match api.compare current incoming with
      | .useIncoming => some (adoptIncoming deviceUrl st incoming)
      | .fetch => setLocusFuel deviceUrl api fuel (i + 1) st (api.fetched i)
      | .ignore => some (st, [])

end SparkCall

namespace SparkCall

/-- C1: the source's status deriver follows the spec's ordered rule: connected
whenever this device has joined and the remote participant is joined (checked
first, so it wins over LEFT/DECLINED states); otherwise, with both
participant records present, disconnected on either LEFT, else disconnected
on remote DECLINED, else ringing on remote NOTIFIED; else initiated. -/
theorem deriveStatus_follows_spec_rule (joinedHere : Bool)
    (lcl rmt : Option Participant) :
    deriveStatus joinedHere lcl rmt = specStatusRule joinedHere lcl rmt := by
  cases rmt with
  | none =>
    cases lcl <;> simp [deriveStatus, specStatusRule, remoteIsJoined]
  | some r =>
    cases lcl with
    | none =>
      by_cases h : joinedHere && participantIsJoined r <;>
        simp [deriveStatus, specStatusRule, remoteIsJoined, h]
    | some l =>
      by_cases h : joinedHere && participantIsJoined r
      · simp [deriveStatus, specStatusRule, remoteIsJoined, h]
      · simp only [deriveStatus, specStatusRule, remoteIsJoined, h, if_false,
          Bool.false_eq_true]
        by_cases h1 : r.state = "LEFT" <;>
          by_cases h2 : l.state = "LEFT" <;>
            simp [statusBothPresent, h1, h2, or_comm]

/-- C2: when the call has no current session, reconciliation adopts the
incoming snapshot unconditionally — for every comparator and fetch stream the
result is the same (so the comparator is never consulted), the session
becomes exactly the incoming snapshot, and the operation succeeds (with any
positive fuel, i.e. without recursing). -/
theorem setLocus_nil_adopts_unconditionally (deviceUrl : String) (api : LocusApi)
    (fuel i : Nat) (st : CallState) (incoming : Locus) (h : st.locus = none) :
    setLocusFuel deviceUrl api (fuel + 1) i st incoming =
      some ({ st with locus := some incoming }, [Ev.changeLocus]) := by
  simp [setLocusFuel, h]

/-- Witness for C2 at a concrete empty call state and snapshot. -/
theorem setLocus_nil_adopts_unconditionally_witness :
    setLocusFuel "device-url"
        { compare := fun _ _ => CompareAction.fetch, fetched := fun _ => ⟨"f", none, []⟩ }
        1 0
        { locus := none, correlationId := none,
          locusJoinInFlight := false, locusLeaveInFlight := false }
        ⟨"locus-url", none, []⟩ =
      some ({ locus := some ⟨"locus-url", none, []⟩, correlationId := none,
              locusJoinInFlight := false, locusLeaveInFlight := false },
            [Ev.changeLocus]) :=
  setLocus_nil_adopts_unconditionally "device-url"
    { compare := fun _ _ => CompareAction.fetch, fetched := fun _ => ⟨"f", none, []⟩ }
    0 0
    { locus := none, correlationId := none,
      locusJoinInFlight := false, locusLeaveInFlight := false }
    ⟨"locus-url", none, []⟩ rfl

/-- A self participant whose device record for url `device-url` carries the
correlation id `corr-b`; used to exercise the correlation resync of the
`USE_INCOMING` branch. -/
def cxSelf : Participant :=
  { url := "self", state := "JOINED",
    devices := [{ url := "device-url", correlationId := some "corr-b" }],
    status := { audioStatus := "", videoStatus := "" } }

/-- An incoming snapshot carrying `cxSelf`. -/
def cxIncoming : Locus := { url := "locus-url", self := some cxSelf, participants := [] }

/-- A current snapshot with no matching device record. -/
def cxCurrent : Locus := { url := "locus-url", self := none, participants := [] }

/-- A comparator that always answers `USE_INCOMING`. -/
def cxApi : LocusApi :=
  { compare := fun _ _ => CompareAction.useIncoming, fetched := fun _ => cxCurrent }

/-- A call state that already has a session and a correlation id `corr-a`. -/
def cxState : CallState :=
  { locus := some cxCurrent, correlationId := some "corr-a",
    locusJoinInFlight := false, locusLeaveInFlight := false }

/-- Counterexample to C5: a call whose correlationId is already set to
`corr-a` reconciles a snapshot the comparator accepts whose matching device
record carries `corr-b`; the adoption reassigns correlationId to `corr-b`,
so correlationId is not immutable after its first assignment. -/
theorem correlationId_changed_by_adoption :
    ∃ r, setLocusFuel "device-url" cxApi 1 0 cxState cxIncoming = some r ∧
      cxState.correlationId = some "corr-a" ∧
      r.1.correlationId = some "corr-b" :=
  ⟨_, rfl, rfl, rfl⟩

/-- C5 (amended): correlationId is not immutable.  Whenever reconciliation
adopts an incoming snapshot (comparator verdict `USE_INCOMING`), the
correlationId is resynchronized to the adopted snapshot's matching device
record when such a record exists, and left unchanged when none exists. -/
theorem correlationId_resync_on_adopt (u : String) (api : LocusApi)
    (fuel i : Nat) (st : CallState) (current S : Locus)
    (hc : st.locus = some current)
    (ha : api.compare current S = CompareAction.useIncoming) :
    ∃ r, setLocusFuel u api (fuel + 1) i st S = some r ∧
      r.1.correlationId =
        (match deviceOf u (some S) with
         | some d => d.correlationId
         | none => st.correlationId) ∧
      r.1.locus = some S := by
  refine ⟨adoptIncoming u st S, by simp [setLocusFuel, hc, ha], ?_, ?_⟩ <;>
    · unfold adoptIncoming
      cases h : deviceOf u (some S) <;> simp [h]

/-- Witness for the amended C5 at a concrete adoption with a matching
device record. -/
theorem correlationId_resync_on_adopt_witness :
    ∃ r, setLocusFuel "device-url" cxApi 1 0 cxState cxIncoming = some r ∧
      r.1.correlationId =
        (match deviceOf "device-url" (some cxIncoming) with
         | some d => d.correlationId
         | none => cxState.correlationId) ∧
      r.1.locus = some cxIncoming :=
  correlationId_resync_on_adopt "device-url" cxApi 0 0 cxState cxCurrent
    cxIncoming rfl rfl

/-- Adding fuel never changes a reconciliation result that already
settled: the fuel bound is an artifact of the embedding, not of the code. -/
theorem setLocusFuel_mono (u : String) (api : LocusApi) :
    ∀ fuel i st inc r, setLocusFuel u api fuel i st inc = some r →
      setLocusFuel u api (fuel + 1) i st inc = some r := by
  intro fuel
  induction fuel with
  | zero => intro i st inc r h; simp [setLocusFuel] at h
  | succ f ih =>
    intro i st inc r h
    cases hst : st.locus with
    | none => simpa [setLocusFuel, hst] using by simpa [setLocusFuel, hst] using h
    | some current =>
      cases hc : api.compare current inc with
      | useIncoming =>
        simpa [setLocusFuel, hst, hc] using by simpa [setLocusFuel, hst, hc] using h
      | ignore =>
        simpa [setLocusFuel, hst, hc] using by simpa [setLocusFuel, hst, hc] using h
      | fetch =>
        have h1 : setLocusFuel u api f (i + 1) st (api.fetched i) = some r := by
          simpa [setLocusFuel, hst, hc] using h
        have := ih (i + 1) st (api.fetched i) r h1
        simpa [setLocusFuel, hst, hc] using this

/-- A settled reconciliation result is preserved by any larger fuel. -/
theorem setLocusFuel_le (u : String) (api : LocusApi) (fuel f i : Nat)
    (st : CallState) (inc : Locus) (r : CallState × List Ev)
    (hle : fuel ≤ f) (h : setLocusFuel u api fuel i st inc = some r) :
    setLocusFuel u api f i st inc = some r := by
  induction f with
  | zero =>
    have : fuel = 0 := Nat.le_zero.mp hle
    subst this; exact h
  | succ g ih =>
    rcases Nat.lt_or_ge fuel (g + 1) with hlt | hge
    · exact setLocusFuel_mono u api g i st inc r (ih (Nat.lt_succ_iff.mp hlt))
    · have : fuel = g + 1 := Nat.le_antisymm hle hge
      subst this; exact h

/-- Eventual acceptance at fetch index `i + n` guarantees reconciliation
started at fetch index `i` settles with bounded fuel. -/
theorem setLocus_term_aux (u : String) (api : LocusApi) (st : CallState)
    (current : Locus) (hst : st.locus = some current) :
    ∀ n i inc, api.compare current (api.fetched (i + n)) ≠ CompareAction.fetch →
      ∃ fuel r, setLocusFuel u api fuel i st inc = some r := by
  intro n
  induction n with
  | zero =>
    intro i inc hn
    cases hc : api.compare current inc with
    | useIncoming => exact ⟨1, adoptIncoming u st inc, by simp [setLocusFuel, hst, hc]⟩
    | ignore => exact ⟨1, (st, []), by simp [setLocusFuel, hst, hc]⟩
    | fetch =>
      cases hg : api.compare current (api.fetched i) with
      | useIncoming =>
        exact ⟨2, adoptIncoming u st (api.fetched i), by simp [setLocusFuel, hst, hc, hg]⟩
      | ignore => exact ⟨2, (st, []), by simp [setLocusFuel, hst, hc, hg]⟩
      | fetch => exact absurd (by simpa using hg) hn
  | succ n ih =>
    intro i inc hn
    cases hc : api.compare current inc with
    | useIncoming => exact ⟨1, adoptIncoming u st inc, by simp [setLocusFuel, hst, hc]⟩
    | ignore => exact ⟨1, (st, []), by simp [setLocusFuel, hst, hc]⟩
    | fetch =>
      have hn1 : api.compare current (api.fetched (i + 1 + n)) ≠ CompareAction.fetch := by
        have : i + 1 + n = i + (n + 1) := by omega
        rw [this]; exact hn
      obtain ⟨fuel, r, hr⟩ := ih (i + 1) (api.fetched i) hn1
      exact ⟨fuel + 1, r, by simpa [setLocusFuel, hst, hc] using hr⟩

/-- A stale snapshot used by the no-artificial-cap family. -/
def staleLocus : Locus := { url := "stale", self := none, participants := [] }

/-- The snapshot the comparator finally accepts in the no-artificial-cap
family. -/
def goodLocus : Locus := { url := "good", self := none, participants := [] }

/-- The current snapshot of the no-artificial-cap family. -/
def capCurrent : Locus := { url := "current", self := none, participants := [] }

/-- A locus service whose comparator demands a re-fetch for every snapshot
except `goodLocus`, and whose fetch stream first returns `M` stale copies. -/
def capApi (M : Nat) : LocusApi :=
  { compare := fun _ inc =>
      if inc.url = "good" then CompareAction.useIncoming else CompareAction.fetch,
    fetched := fun j => if j = M then goodLocus else staleLocus }

/-- The call state of the no-artificial-cap family. -/
def capState : CallState :=
  { locus := some capCurrent, correlationId := none,
    locusJoinInFlight := false, locusLeaveInFlight := false }

/-- In the no-artificial-cap family, fuel that runs out before the accepted
fetch leaves the reconciliation unsettled. -/
theorem capApi_needs_fuel (M : Nat) :
    ∀ k i, i + k ≤ M + 1 →
      setLocusFuel "d" (capApi M) k i capState staleLocus = none := by
  intro k
  induction k with
  | zero => intro i _; rfl
  | succ g ih =>
    intro i hik
    have hcmp : (capApi M).compare capCurrent staleLocus = CompareAction.fetch := by
      simp [capApi, staleLocus]
    simp only [setLocusFuel, capState, hcmp]
    by_cases hi : i = M
    · have hg : g = 0 := by omega
      subst hg; rfl
    · have hfetch : (capApi M).fetched i = staleLocus := by simp [capApi, hi]
      rw [hfetch]
      exact ih (i + 1) (by omega)

/-- In the no-artificial-cap family, fuel reaching past the accepted fetch
settles the reconciliation by adopting the accepted snapshot. -/
theorem capApi_settles (M : Nat) :
    ∀ d i, i + d = M →
      setLocusFuel "d" (capApi M) (d + 2) i capState staleLocus =
        some (adoptIncoming "d" capState goodLocus) := by
  intro d
  induction d with
  | zero =>
    intro i hi
    subst hi
    simp [setLocusFuel, capState, capApi, staleLocus, goodLocus]
  | succ g ih =>
    intro i hi
    have hi2 : i ≠ M := by omega
    have hfetch : (capApi M).fetched i = staleLocus := by simp [capApi, hi2]
    have hcmp : (capApi M).compare capCurrent staleLocus = CompareAction.fetch := by
      simp [capApi, staleLocus]
    have hrec := ih (i + 1) (by omega)
    simp only [setLocusFuel, capState, hcmp, hfetch]
    exact hrec

/-- C6: the `FETCH` verdict makes `_setLocus` re-fetch and recursively
reconcile.  First conjunct (termination): whenever some fetch is eventually
classified other than `FETCH` by the comparator, the recursion settles with
finite fuel, and the settled result is stable under any larger fuel.  Second
conjunct (no artificial attempt cap): for every bound `N` there is a fetch
stream on which `N` recursion steps are not enough yet the recursion still
terminates — so no fixed attempt cap is compatible with the code. -/
theorem setLocus_refetch_terminates :
    (∀ (u : String) (api : LocusApi) (st : CallState) (current : Locus)
        (i n : Nat) (inc : Locus),
        st.locus = some current →
        api.compare current (api.fetched (i + n)) ≠ CompareAction.fetch →
        ∃ fuel r, setLocusFuel u api fuel i st inc = some r ∧
          ∀ f, fuel ≤ f → setLocusFuel u api f i st inc = some r) ∧
    (∀ N : Nat,
        setLocusFuel "d" (capApi N) N 0 capState staleLocus = none ∧
        ∃ r, setLocusFuel "d" (capApi N) (N + 2) 0 capState staleLocus = some r) := by
  constructor
  · intro u api st current i n inc hst hn
    obtain ⟨fuel, r, hr⟩ := setLocus_term_aux u api st current hst n i inc hn
    exact ⟨fuel, r, hr, fun f hf => setLocusFuel_le u api fuel f i st inc r hf hr⟩
  · intro N
    refine ⟨capApi_needs_fuel N N 0 (by omega), ?_⟩
    exact ⟨adoptIncoming "d" capState goodLocus, capApi_settles N N 0 (by omega)⟩

/-- Witness for C6 applying the termination conjunct at a concrete fetch
stream whose first fetch is already accepted. -/
theorem setLocus_refetch_terminates_witness :
    ∃ fuel r, setLocusFuel "d" (capApi 0) fuel 0 capState staleLocus = some r ∧
      ∀ f, fuel ≤ f → setLocusFuel "d" (capApi 0) f 0 capState staleLocus = some r :=
  setLocus_refetch_terminates.1 "d" (capApi 0) capState capCurrent 0 0 staleLocus
    rfl (by decide)

/-- Classification of the session a settled reconciliation leaves behind:
either the state is unchanged, or the final session is the incoming
snapshot, or it is one of the fetched snapshots. -/
theorem setLocus_final_locus (u : String) (api : LocusApi) :
    ∀ fuel i st inc st1 ev,
      setLocusFuel u api fuel i st inc = some (st1, ev) →
      st1 = st ∨ st1.locus = some inc ∨ ∃ j, st1.locus = some (api.fetched j) := by
  intro fuel
  induction fuel with
  | zero => intro i st inc st1 ev h; simp [setLocusFuel] at h
  | succ f ih =>
    intro i st inc st1 ev h
    cases hst : st.locus with
    | none =>
      have h1 : ({ st with locus := some inc }, ([Ev.changeLocus] : List Ev)) = (st1, ev) := by
        simpa [setLocusFuel, hst] using h
      exact Or.inr (Or.inl (by rw [← (Prod.mk.injEq ..).mp h1 |>.1]))
    | some current =>
      cases hc : api.compare current inc with
      | useIncoming =>
        have h1 : adoptIncoming u st inc = (st1, ev) := by
          simpa [setLocusFuel, hst, hc] using h
        refine Or.inr (Or.inl ?_)
        rw [← (Prod.mk.injEq ..).mp h1 |>.1]
        cases hd : deviceOf u (some inc) <;> simp [adoptIncoming, hd]
      | ignore =>
        have h1 : ((st, ([] : List Ev)) : CallState × List Ev) = (st1, ev) := by
          simpa [setLocusFuel, hst, hc] using h
        exact Or.inl ((Prod.mk.injEq ..).mp h1 |>.1.symm)
      | fetch =>
        have h1 : setLocusFuel u api f (i + 1) st (api.fetched i) = some (st1, ev) := by
          simpa [setLocusFuel, hst, hc] using h
        rcases ih (i + 1) st (api.fetched i) st1 ev h1 with h2 | h2 | ⟨j, h2⟩
        · exact Or.inl h2
        · exact Or.inr (Or.inr ⟨i, h2⟩)
        · exact Or.inr (Or.inr ⟨j, h2⟩)

/-- A reconciliation that leaves the state unchanged emits no change
notifications: every event carries an actual value change. -/
theorem setLocus_noop_no_events (u : String) (api : LocusApi) :
    ∀ fuel i st inc ev,
      setLocusFuel u api fuel i st inc = some (st, ev) → ev = [] := by
  intro fuel
  induction fuel with
  | zero => intro i st inc ev h; simp [setLocusFuel] at h
  | succ f ih =>
    intro i st inc ev h
    cases hst : st.locus with
    | none =>
      have h1 : ({ st with locus := some inc }, ([Ev.changeLocus] : List Ev)) = (st, ev) := by
        simpa [setLocusFuel, hst] using h
      have h2 := congrArg CallState.locus ((Prod.mk.injEq ..).mp h1 |>.1)
      simp [hst] at h2
    | some current =>
      cases hc : api.compare current inc with
      | useIncoming =>
        have h1 : adoptIncoming u st inc = (st, ev) := by
          simpa [setLocusFuel, hst, hc] using h
        unfold adoptIncoming at h1
        cases hd : deviceOf u (some inc) with
        | some d =>
          rw [hd] at h1
          have hstate := (Prod.mk.injEq ..).mp h1 |>.1
          have hloc : st.locus = some inc := by
            have := congrArg CallState.locus hstate
            simpa using this.symm
          have hcorr : st.correlationId = d.correlationId := by
            have := congrArg CallState.correlationId hstate
            simpa using this.symm
          have hev := (Prod.mk.injEq ..).mp h1 |>.2
          rw [← hev]
          simp [hloc, hcorr]
        | none =>
          rw [hd] at h1
          have hstate := (Prod.mk.injEq ..).mp h1 |>.1
          have hloc : st.locus = some inc := by
            have := congrArg CallState.locus hstate
            simpa using this.symm
          have hev := (Prod.mk.injEq ..).mp h1 |>.2
          rw [← hev]
          simp [hloc]
      | ignore =>
        have h1 : ((st, ([] : List Ev)) : CallState × List Ev) = (st, ev) := by
          simpa [setLocusFuel, hst, hc] using h
        exact ((Prod.mk.injEq ..).mp h1 |>.2).symm
      | fetch =>
        have h1 : setLocusFuel u api f (i + 1) st (api.fetched i) = some (st, ev) := by
          simpa [setLocusFuel, hst, hc] using h
        exact ih (i + 1) st (api.fetched i) ev h1

/-- C9: reconciliation is idempotent.  The comparator is external to the
repository; the two hypotheses are its laws implied by the spec's ordering
semantics: a snapshot is never classified as newer than itself, and a
snapshot freshly fetched during reconciliation of `S` is never older than
`S` (both verdicts are `Ignore`).  Under them, if reconciling `S` settles
in state `st1`, immediately reconciling `S` again yields exactly `st1` and
emits no change notifications: the second application is a no-op. -/
theorem setLocus_idempotent (u : String) (api : LocusApi) (F i : Nat)
    (st st1 : CallState) (S : Locus) (ev1 : List Ev)
    (hSS : api.compare S S = CompareAction.ignore)
    (hf : ∀ j, api.compare (api.fetched j) S = CompareAction.ignore)
    (hrun : setLocusFuel u api F i st S = some (st1, ev1)) :
    setLocusFuel u api F i st1 S = some (st1, []) := by
  obtain ⟨f, rfl⟩ : ∃ f, F = f + 1 := by
    cases F with
    | zero => simp [setLocusFuel] at hrun
    | succ f => exact ⟨f, rfl⟩
  rcases setLocus_final_locus u api (f + 1) i st S st1 ev1 hrun with h | h | ⟨j, h⟩
  · rw [h] at hrun ⊢
    have hev : ev1 = [] := setLocus_noop_no_events u api (f + 1) i st S ev1 hrun
    rw [hev] at hrun
    exact hrun
  · simp [setLocusFuel, h, hSS]
  · simp [setLocusFuel, h, hf j]

/-- Witness for C9 at a concrete state and an all-ignore comparator. -/
theorem setLocus_idempotent_witness :
    setLocusFuel "device-url"
        { compare := fun _ _ => CompareAction.ignore, fetched := fun _ => cxCurrent }
        1 0 cxState cxIncoming = some (cxState, []) :=
  setLocus_idempotent "device-url"
    { compare := fun _ _ => CompareAction.ignore, fetched := fun _ => cxCurrent }
    1 0 cxState cxState cxIncoming [] rfl (fun _ => rfl) rfl

/-- The environment of the lifecycle operations: this device's url, the
direction classifier (modelled from the spec, since the `direction` helper
of `state-parsers.js` is not under `src/`: it computes `in` or `out` from
session content), the locus service, the results of the leave/decline round
trips, and the session snapshot delivered by the awaited `change:locus`
when a join lands. -/
structure PhoneEnv where
  deviceUrl : String
  directionOf : Locus → String
  api : LocusApi
  leaveResult : Except String Locus
  declineResult : Except String Locus
  joinLanded : Locus

/-- The Call's derived `direction`: defaulted to `out` before any session
exists, otherwise computed from session content. -/
def callDirection (env : PhoneEnv) (l : Option Locus) : String :=
  match l with
  | none => "out"
  | some loc => env.directionOf loc

/-- The Call's derived `joinedOnThisDevice`, defaulted to false without a
session. -/
def callJoinedOnThisDevice (u : String) (l : Option Locus) : Bool :=
  match l with
  | some loc => joinedOnThisDevice u loc
  | none => false

/-- The guard opening `hangup` in the source: inbound calls not joined on
this device are delegated to `reject`. -/
def hangupDelegatesToReject (env : PhoneEnv) (st : CallState) : Bool :=
  callDirection env st.locus == "in" && !callJoinedOnThisDevice env.deviceUrl st.locus

/-- The observable outcome of a lifecycle operation: the state it leaves
behind, the settled promise (`ok` resolution or propagated rejection), and
the trace of external effects and change notifications in order. -/
structure OpResult where
  state : CallState
  outcome : Except String Unit
  trace : List Ev
  deriving Repr

/-- `reject`, translated from `call.js` lines 613-626: a no-op for outbound
calls, otherwise a decline round trip whose result is reconciled before the
listeners are torn down; a failed decline skips the teardown chain and
propagates. -/
def rejectOp (env : PhoneEnv) (fuel : Nat) (st : CallState) : Option OpResult :=
  if callDirection env st.locus == "out" then
    some { state := st, outcome := .ok (), trace := [] }
  else
    match env.declineResult with
    | .ok locus =>
      match setLocusFuel env.deviceUrl env.api fuel 0 st locus with
      | some (st1, ev) =>
        some { state := st1, outcome := .ok (),
               trace := Ev.declineRequest :: ev ++ [Ev.teardown] }
      | none => none
    | .error e => some { state := st, outcome := .error e, trace := [Ev.declineRequest] }

/-- `hangup` together with `_hangup`, translated from `call.js` lines
551-593, with fuel for the wait-and-retry recursion and the reconciliation
recursion.  After the reject delegation check, local media is ended
unconditionally; with no session yet the operation either waits for the
in-flight join's `change:locus` and retries, or — with no join outstanding —
tears the listeners down directly; with a session it issues the leave round
trip, reconciles its result and tears down, while a rejected leave skips the
teardown chain and propagates. -/
def hangupFuel (env : PhoneEnv) : Nat → CallState → Option OpResult
  | 0, _ => none
  | fuel + 1, st =>
    if hangupDelegatesToReject env st then
      rejectOp env fuel st
    else
      match st.locus with
      | none =>
        if st.locusJoinInFlight then
          match hangupFuel env fuel
              { st with locus := some env.joinLanded, locusJoinInFlight := false } with
          | some r =>
            some { state := r.state, outcome := r.outcome,
                   trace := Ev.mediaEnd :: Ev.waitChangeLocus :: r.trace }
          | none => none
        else
          some { state := st, outcome := .ok (), trace := [Ev.mediaEnd, Ev.teardown] }
      | some _ =>
        match env.leaveResult with
        | .ok locus =>
          match setLocusFuel env.deviceUrl env.api fuel 0
              { st with locusLeaveInFlight := true } locus with
          | some (st1, ev) =>
            some { state := { st1 with locusLeaveInFlight := false }, outcome := .ok (),
                   trace := Ev.mediaEnd :: Ev.leaveRequest :: ev ++ [Ev.teardown] }
          | none => none
        | .error e =>
          some { state := { st with locusLeaveInFlight := true }, outcome := .error e,
                 trace := [Ev.mediaEnd, Ev.leaveRequest] }

/-- The resolution of `answer`: immediate resolution without a join, or an
actual `_join(join, locus)` round trip. -/
inductive AnswerAction
  | resolveNoop
  | resolveAlreadyJoined
  | joinRequest
  deriving DecidableEq, Repr

/-- `answer`, translated from `call.js` lines 479-492: resolves immediately
when there is no session or the call is outbound; resolves immediately when
already joined on this device with a live peer connection; only otherwise
does it issue the join round trip (`_join` with the `join` action). -/
def answerOp (env : PhoneEnv) (hasPeer : Bool) (st : CallState) : AnswerAction :=
  if st.locus.isNone || callDirection env st.locus == "out" then
    .resolveNoop
  else if callJoinedOnThisDevice env.deviceUrl st.locus && hasPeer then
    .resolveAlreadyJoined
  else
    .joinRequest

/-- A comparator that ignores everything, for demonstration environments. -/
def demoApi : LocusApi :=
  { compare := fun _ _ => CompareAction.ignore, fetched := fun _ => cxCurrent }

/-- A demonstration environment whose remote round trips fail. -/
def errEnv : PhoneEnv :=
  { deviceUrl := "device-url", directionOf := fun _ => "out", api := demoApi,
    leaveResult := .error "leave failed", declineResult := .error "decline failed",
    joinLanded := cxCurrent }

/-- Reconciliation emits only change notifications, never external round
trips of the lifecycle operations. -/
theorem setLocusFuel_events (u : String) (api : LocusApi) :
    ∀ fuel i st inc st1 ev,
      setLocusFuel u api fuel i st inc = some (st1, ev) →
      ∀ e, e ∈ ev → e = Ev.changeLocus ∨ e = Ev.changeCorrelationId := by
  intro fuel
  induction fuel with
  | zero => intro i st inc st1 ev h; simp [setLocusFuel] at h
  | succ f ih =>
    intro i st inc st1 ev h e he
    cases hst : st.locus with
    | none =>
      simp only [setLocusFuel, hst, Option.some.injEq, Prod.mk.injEq] at h
      rw [← h.2] at he
      simp at he
      exact Or.inl he
    | some current =>
      cases hc : api.compare current inc with
      | useIncoming =>
        have h1 : adoptIncoming u st inc = (st1, ev) := by
          simpa [setLocusFuel, hst, hc] using h
        unfold adoptIncoming at h1
        cases hd : deviceOf u (some inc) with
        | some d =>
          rw [hd] at h1
          have hev := (Prod.mk.injEq ..).mp h1 |>.2
          rw [← hev] at he
          rcases List.mem_append.mp he with h2 | h2 <;>
            · split at h2
              · simp at h2
              · simp at h2
                simp [h2]
        | none =>
          rw [hd] at h1
          have hev := (Prod.mk.injEq ..).mp h1 |>.2
          rw [← hev] at he
          split at he
          · simp at he
          · simp at he
            simp [he]
      | ignore =>
        have h1 : ((st, ([] : List Ev)) : CallState × List Ev) = (st1, ev) := by
          simpa [setLocusFuel, hst, hc] using h
        have hev := (Prod.mk.injEq ..).mp h1 |>.2
        rw [← hev] at he
        simp at he
      | fetch =>
        have h1 : setLocusFuel u api f (i + 1) st (api.fetched i) = some (st1, ev) := by
          simpa [setLocusFuel, hst, hc] using h
        exact ih (i + 1) st (api.fetched i) st1 ev h1 e he

/-- C3: when `hangup` takes the leave path (a session is present and the
call is not delegated to `reject`), local media is ended strictly before
the leave round trip is issued — the trace always starts
`mediaEnd, leaveRequest` — and when the leave round trip fails, the
rejection still propagates to the caller while media was already ended.  On
the delegation path no leave round trip is issued at all, so the ordering
holds vacuously. -/
theorem hangup_stops_media_before_leave (env : PhoneEnv) (st : CallState)
    (lc : Locus) (fuel : Nat) (hl : st.locus = some lc) :
    (hangupDelegatesToReject env st = false →
      ∀ r, hangupFuel env (fuel + 1) st = some r →
        ∃ rest, r.trace = Ev.mediaEnd :: Ev.leaveRequest :: rest) ∧
    (hangupDelegatesToReject env st = false →
      ∀ e, env.leaveResult = .error e →
        hangupFuel env (fuel + 1) st =
          some { state := { st with locusLeaveInFlight := true },
                 outcome := .error e,
                 trace := [Ev.mediaEnd, Ev.leaveRequest] }) ∧
    (hangupDelegatesToReject env st = true →
      ∀ r, hangupFuel env (fuel + 1) st = some r →
        Ev.leaveRequest ∉ r.trace) := by
  refine ⟨?_, ?_, ?_⟩
  · intro hpath r hr
    cases hres : env.leaveResult with
    | ok locus =>
      cases hset : setLocusFuel env.deviceUrl env.api fuel 0
          { st with locusLeaveInFlight := true } locus with
      | some p =>
        obtain ⟨st1, ev⟩ := p
        rw [hl] at hset
        have hcomp : hangupFuel env (fuel + 1) st =
            some { state := { st1 with locusLeaveInFlight := false }, outcome := .ok (),
                   trace := Ev.mediaEnd :: Ev.leaveRequest :: ev ++ [Ev.teardown] } := by
          simp [hangupFuel, hpath, hl, hres, hset]
        rw [hcomp] at hr
        simp only [Option.some.injEq] at hr
        exact ⟨ev ++ [Ev.teardown], by subst hr; rfl⟩
      | none =>
        rw [hl] at hset
        have hcomp : hangupFuel env (fuel + 1) st = none := by
          simp [hangupFuel, hpath, hl, hres, hset]
        rw [hcomp] at hr
        cases hr
    | error e =>
      have hcomp : hangupFuel env (fuel + 1) st =
          some { state := { st with locusLeaveInFlight := true }, outcome := .error e,
                 trace := [Ev.mediaEnd, Ev.leaveRequest] } := by
        simp [hangupFuel, hpath, hl, hres]
      rw [hcomp] at hr
      simp only [Option.some.injEq] at hr
      exact ⟨[], by rw [← hr]⟩
  · intro hpath e he
    simp [hangupFuel, hpath, hl, he]
  · intro hpath r hr
    have hr2 : rejectOp env fuel st = some r := by
      rw [← hr]
      simp [hangupFuel, hpath, hl]
    by_cases hdir : (callDirection env st.locus == "out") = true
    · have : r.trace = [] := by
        have h1 : some { state := st, outcome := Except.ok (), trace := ([] : List Ev) } =
            some r := by simpa [rejectOp, hdir] using hr2
        simp only [Option.some.injEq] at h1
        rw [← h1]
      simp [this]
    · have hdir2 : (callDirection env st.locus == "out") = false := by
        simpa using hdir
      cases hres : env.declineResult with
      | ok locus =>
        cases hset : setLocusFuel env.deviceUrl env.api fuel 0 st locus with
        | some p =>
          obtain ⟨st1, ev⟩ := p
          have h1 : some { state := st1, outcome := Except.ok (),
                           trace := Ev.declineRequest :: ev ++ [Ev.teardown] } = some r := by
            simpa [rejectOp, hdir2, hres, hset] using hr2
          simp only [Option.some.injEq] at h1
          rw [← h1]
          intro hmem
          rcases List.mem_cons.mp hmem with h2 | h2
          · exact Ev.noConfusion h2
          · rcases List.mem_append.mp h2 with h3 | h3
            · rcases setLocusFuel_events env.deviceUrl env.api fuel 0 st locus st1 ev
                hset Ev.leaveRequest h3 with h4 | h4
              · exact Ev.noConfusion h4
              · exact Ev.noConfusion h4
            · rw [List.mem_singleton] at h3
              exact Ev.noConfusion h3
        | none =>
          rw [show rejectOp env fuel st = none from by
            simp [rejectOp, hdir2, hres, hset]] at hr2
          cases hr2
      | error e =>
        have h1 : some { state := st, outcome := Except.error e,
                         trace := [Ev.declineRequest] } = some r := by
          simpa [rejectOp, hdir2, hres] using hr2
        simp only [Option.some.injEq] at h1
        rw [← h1]
        simp

/-- Witness for C3: a concrete call with a session whose leave round trip
fails; the rejection propagates and media was ended before the leave. -/
theorem hangup_stops_media_before_leave_witness :
    hangupFuel errEnv 1 cxState =
      some { state := { cxState with locusLeaveInFlight := true },
             outcome := .error "leave failed",
             trace := [Ev.mediaEnd, Ev.leaveRequest] } :=
  (hangup_stops_media_before_leave errEnv cxState cxCurrent 0 rfl).2.1 rfl
    "leave failed" rfl

/-- The C4 demonstration state: no session yet, join round trip in flight. -/
def c4State : CallState :=
  { locus := none, correlationId := none,
    locusJoinInFlight := true, locusLeaveInFlight := false }

/-- The state the C4 demonstration reaches once the in-flight join's session
update lands. -/
def c4Landed : CallState :=
  { c4State with locus := some cxCurrent, locusJoinInFlight := false }

/-- The overall C4 demonstration outcome: media ended, wait observed, retry
performed, failed leave propagated. -/
def c4Outer : OpResult :=
  { state := { c4Landed with locusLeaveInFlight := true },
    outcome := .error "leave failed",
    trace := [Ev.mediaEnd, Ev.waitChangeLocus, Ev.mediaEnd, Ev.leaveRequest] }

/-- C4: with no session snapshot, `hangup` waits for an outstanding join's
session update before doing anything else — its whole behaviour is: end
media, observe `change:locus`, and retry `hangup` on the state with the
join's session assigned — and it tears the call down directly only when no
join is outstanding (in which case no leave round trip and no wait occur). -/
theorem hangup_waits_for_join (env : PhoneEnv) (st : CallState) (fuel : Nat)
    (hl : st.locus = none) :
    (st.locusJoinInFlight = true →
      ∀ r, hangupFuel env (fuel + 1) st = some r →
        ∃ r2, hangupFuel env fuel
            { st with locus := some env.joinLanded, locusJoinInFlight := false } =
              some r2 ∧
          r.state = r2.state ∧ r.outcome = r2.outcome ∧
          r.trace = Ev.mediaEnd :: Ev.waitChangeLocus :: r2.trace) ∧
    (st.locusJoinInFlight = false →
      hangupFuel env (fuel + 1) st =
        some { state := st, outcome := .ok (),
               trace := [Ev.mediaEnd, Ev.teardown] }) := by
  have hdel : hangupDelegatesToReject env st = false := by
    simp [hangupDelegatesToReject, callDirection, hl]
  constructor
  · intro hin r hr
    rw [show hangupFuel env (fuel + 1) st =
          (match hangupFuel env fuel
              { st with locus := some env.joinLanded, locusJoinInFlight := false } with
           | some r0 =>
             some { state := r0.state, outcome := r0.outcome,
                    trace := Ev.mediaEnd :: Ev.waitChangeLocus :: r0.trace }
           | none => none) from by
      simp [hangupFuel, hdel, hl, hin]] at hr
    cases hrec : hangupFuel env fuel
        { st with locus := some env.joinLanded, locusJoinInFlight := false } with
    | some r2 =>
      rw [hrec] at hr
      simp only [Option.some.injEq] at hr
      exact ⟨r2, rfl, by rw [← hr], by rw [← hr], by rw [← hr]⟩
    | none => rw [hrec] at hr; cases hr
  · intro hin
    simp [hangupFuel, hdel, hl, hin]

/-- Witness for C4 at a concrete no-session state with a join in flight. -/
theorem hangup_waits_for_join_witness :
    ∃ r2, hangupFuel errEnv 1
        { c4State with locus := some errEnv.joinLanded, locusJoinInFlight := false } =
          some r2 ∧
      c4Outer.state = r2.state ∧ c4Outer.outcome = r2.outcome ∧
      c4Outer.trace = Ev.mediaEnd :: Ev.waitChangeLocus :: r2.trace :=
  (hangup_waits_for_join errEnv c4State 1 rfl).1 rfl c4Outer rfl

/-- C10: with no session snapshot yet, `answer` resolves immediately as a
no-op for every environment (hence regardless of the derived direction,
which is `out` by default) and every peer-connection state: no join round
trip is issued and the state is untouched. -/
theorem answer_noop_without_session (env : PhoneEnv) (hasPeer : Bool)
    (st : CallState) (hl : st.locus = none) :
    answerOp env hasPeer st = AnswerAction.resolveNoop := by
  simp [answerOp, hl]

/-- Witness for C10 at a concrete fresh call state. -/
theorem answer_noop_without_session_witness :
    answerOp errEnv true c4State = AnswerAction.resolveNoop :=
  answer_noop_without_session errEnv true c4State rfl

/-- `boolToStatus`, translated from the repository's `bool-to-status`
helper: maps the (sending, receiving) boolean pair to the session media
status string.  The source's trailing `throw` is dead code: the four cases
are exhaustive. -/
def boolToStatus (sending receiving : Bool) : String :=
  if sending && receiving then "sendrecv"
  else if sending && !receiving then "sendonly"
  else if !sending && receiving then "recvonly"
  else "inactive"

/-- The media adapter flags `_fetchExpectedLocus` reads: the audio/video
send constraints and the offer-to-receive flags. -/
structure MediaFlags where
  audio : Bool
  video : Bool
  offerToReceiveAudio : Bool
  offerToReceiveVideo : Bool
  deriving DecidableEq, Repr

/-- One polling attempt of `_fetchExpectedLocus` (`call.js` lines 911-925)
applied to an already-fetched snapshot: the snapshot is returned only when
its reported (lower-cased) audio and video status strings equal the values
expected from the local flags; otherwise the attempt fails with a
recoverable error (a missing `self` record fails like the source's attempt
would, by throwing). -/
def checkExpectedLocus (m : MediaFlags) (l : Locus) : Except String Locus :=
  match l.self with
  | none => .error "TypeError: cannot read property status of undefined"
  | some s =>
    if s.status.audioStatus.toLower ≠ boolToStatus m.audio m.offerToReceiveAudio then
      .error "locus.self.status.audioStatus indicates the received DTO is out of date"
    else if s.status.videoStatus.toLower ≠ boolToStatus m.video m.offerToReceiveVideo then
      .error "locus.self.status.videoStatus indicates the received DTO is out of date"
    else
      .ok l

/-- Modelled from the spec: the `@retry` decorator comes from
`@ciscospark/common`, which is not under `src/`; per the source's doc
comment the poll re-attempts until success or three errors occur,
propagating the final failure.  The first argument of the recursion is the
number of re-attempts remaining, the second the attempt index. -/
def retryAttempts (f : Nat → Except String Locus) : Nat → Nat → Except String Locus
  | 0, i => f i
  | n + 1, i =>
    match f i with
    | .ok l => .ok l
    | .error _ => retryAttempts f n (i + 1)

/-- `_fetchExpectedLocus` under the `@retry` decorator: up to three
attempts, each fetching a fresh snapshot (the stream `got`) and checking it
against the expected status strings. -/
def fetchExpectedLocus (m : MediaFlags) (got : Nat → Locus) : Except String Locus :=
  retryAttempts (fun i => checkExpectedLocus m (got i)) 2 0

/-- A successful retry run succeeds on one of its attempts. -/
theorem retryAttempts_ok (f : Nat → Except String Locus) :
    ∀ n i l, retryAttempts f n i = .ok l → ∃ j, f j = .ok l := by
  intro n
  induction n with
  | zero => intro i l h; exact ⟨i, h⟩
  | succ g ih =>
    intro i l h
    cases hf : f i with
    | ok l0 =>
      refine ⟨i, ?_⟩
      rw [hf]
      simpa [retryAttempts, hf] using h
    | error e =>
      exact ih (i + 1) l (by simpa [retryAttempts, hf] using h)

/-- A retry run consults only the attempts up to its attempt budget. -/
theorem retryAttempts_bounded (f g : Nat → Except String Locus) :
    ∀ n i, (∀ j, i ≤ j → j ≤ i + n → f j = g j) →
      retryAttempts f n i = retryAttempts g n i := by
  intro n
  induction n with
  | zero =>
    intro i h
    simpa [retryAttempts] using h i (Nat.le_refl i) (Nat.le_refl i)
  | succ m ih =>
    intro i h
    have hi : f i = g i := h i (Nat.le_refl i) (by omega)
    cases hf : g i with
    | ok l => simp [retryAttempts, hi, hf]
    | error e =>
      have := ih (i + 1) (fun j h1 h2 => h j (by omega) (by omega))
      simp [retryAttempts, hi, hf, this]

/-- A retry run whose every attempt fails propagates a failure. -/
theorem retryAttempts_all_fail (f : Nat → Except String Locus) :
    ∀ n i, (∀ j, i ≤ j → j ≤ i + n → ∃ e, f j = .error e) →
      ∃ e, retryAttempts f n i = .error e := by
  intro n
  induction n with
  | zero =>
    intro i h
    obtain ⟨e, he⟩ := h i (Nat.le_refl i) (Nat.le_refl i)
    exact ⟨e, by simpa [retryAttempts] using he⟩
  | succ m ih =>
    intro i h
    obtain ⟨e, he⟩ := h i (Nat.le_refl i) (by omega)
    obtain ⟨e2, he2⟩ := ih (i + 1) (fun j h1 h2 => h j (by omega) (by omega))
    exact ⟨e2, by simp [retryAttempts, he, he2]⟩

/-- A successful single attempt returns the checked snapshot with the
expected status strings. -/
theorem checkExpectedLocus_ok (m : MediaFlags) (x l : Locus)
    (h : checkExpectedLocus m x = .ok l) :
    ∃ s, l.self = some s ∧
      s.status.audioStatus.toLower = boolToStatus m.audio m.offerToReceiveAudio ∧
      s.status.videoStatus.toLower = boolToStatus m.video m.offerToReceiveVideo := by
  cases hs : x.self with
  | none => simp [checkExpectedLocus, hs] at h
  | some s =>
    by_cases ha : s.status.audioStatus.toLower = boolToStatus m.audio m.offerToReceiveAudio
    · by_cases hv : s.status.videoStatus.toLower = boolToStatus m.video m.offerToReceiveVideo
      · have hx : x = l := by simpa [checkExpectedLocus, hs, ha, hv] using h
        exact ⟨s, by rw [← hx]; exact hs, ha, hv⟩
      · simp [checkExpectedLocus, hs, ha, hv] at h
    · simp [checkExpectedLocus, hs, ha] at h

/-- C7: the post-media-update poll.  First conjunct: the expected status
string is computed from the (sending, receiving) pair by the
sendrecv/sendonly/recvonly/inactive mapping.  Second: `_fetchExpectedLocus`
returns a snapshot only if its reported audio and video status strings
equal the expected values.  Third: the poll is bounded — it consults at
most the first three fetches.  Fourth: when every attempt mismatches, the
failure propagates. -/
theorem fetchExpectedLocus_spec :
    (boolToStatus true true = "sendrecv" ∧ boolToStatus true false = "sendonly" ∧
      boolToStatus false true = "recvonly" ∧ boolToStatus false false = "inactive") ∧
    (∀ (m : MediaFlags) (got : Nat → Locus) (l : Locus),
      fetchExpectedLocus m got = .ok l →
        ∃ s, l.self = some s ∧
          s.status.audioStatus.toLower = boolToStatus m.audio m.offerToReceiveAudio ∧
          s.status.videoStatus.toLower = boolToStatus m.video m.offerToReceiveVideo) ∧
    (∀ (m : MediaFlags) (got got2 : Nat → Locus),
      (∀ i, i < 3 → got i = got2 i) →
        fetchExpectedLocus m got = fetchExpectedLocus m got2) ∧
    (∀ (m : MediaFlags) (got : Nat → Locus),
      (∀ i, i < 3 → ∃ e, checkExpectedLocus m (got i) = .error e) →
        ∃ e, fetchExpectedLocus m got = .error e) := by
  refine ⟨⟨rfl, rfl, rfl, rfl⟩, ?_, ?_, ?_⟩
  · intro m got l h
    obtain ⟨j, hj⟩ := retryAttempts_ok (fun i => checkExpectedLocus m (got i)) 2 0 l h
    exact checkExpectedLocus_ok m (got j) l hj
  · intro m got got2 h
    exact retryAttempts_bounded _ _ 2 0 fun j _ h2 => by rw [h j (by omega)]
  · intro m got h
    exact retryAttempts_all_fail _ 2 0 fun j _ h2 => h j (by omega)

/-- Witness for C7: a poll whose every fetch reports a mismatching status
propagates a failure. -/
theorem fetchExpectedLocus_spec_witness :
    ∃ e, fetchExpectedLocus
        { audio := true, video := true,
          offerToReceiveAudio := true, offerToReceiveVideo := true }
        (fun _ => cxCurrent) = .error e :=
  fetchExpectedLocus_spec.2.2.2
    { audio := true, video := true,
      offerToReceiveAudio := true, offerToReceiveVideo := true }
    (fun _ => cxCurrent)
    (fun _ _ => ⟨"TypeError: cannot read property status of undefined", rfl⟩)

/-- A video constraint as `toggleFacingMode` sees it: the JS literal `true`
or a constraint object with an exact facing mode; the absent (falsy) case
is `Option.none` at the use site. -/
inductive VideoConstraintVal
  | boolTrue
  | facing (exact : String)
  deriving DecidableEq, Repr

/-- `toggleFacingMode`, translated from `call.js` lines 635-672, up to the
stream request: with no video constraint, or with a recorded facing mode
other than `user`/`environment`, it throws synchronously (no stream is
requested or swapped); otherwise it requests a stream with the opposite
exact facing mode — the `.ok` value — which the remainder of the source
swaps in and records after renegotiation. -/
def toggleFacingMode (videoConstraint : Option VideoConstraintVal)
    (facingMode : Option String) : Except String String :=
  match videoConstraint with
  | none => .error "Cannot toggle facignMode on audio-only call"
  | some _ =>
    if facingMode ≠ some "user" ∧ facingMode ≠ some "environment" then
      .error "Cannot determine current facing mode; specify a new localMediaStream to change cameras"
    else if facingMode = some "user" then
      .ok "environment"
    else
      .ok "user"

/-- C8: on an audio-only call (no video constraint), or when the current
facing mode is neither `user` nor `environment`, `toggleFacingMode` fails
synchronously with an invalid-operation error and no stream request is
produced. -/
theorem toggleFacingMode_invalid_op (vc : Option VideoConstraintVal)
    (fm : Option String)
    (h : vc = none ∨ (fm ≠ some "user" ∧ fm ≠ some "environment")) :
    ∃ msg, toggleFacingMode vc fm = .error msg := by
  rcases h with h | h
  · exact ⟨"Cannot toggle facignMode on audio-only call", by simp [toggleFacingMode, h]⟩
  · cases vc with
    | none => exact ⟨"Cannot toggle facignMode on audio-only call", rfl⟩
    | some v =>
      exact ⟨"Cannot determine current facing mode; specify a new localMediaStream to change cameras",
        by simp [toggleFacingMode, h.1, h.2]⟩

/-- Witness for C8 at a concrete audio-only call. -/
theorem toggleFacingMode_invalid_op_witness :
    ∃ msg, toggleFacingMode none (some "user") = .error msg :=
  toggleFacingMode_invalid_op none (some "user") (Or.inl rfl)

end SparkCall
